import Mathlib

/-!
Verification development for the deprecated configuration parser
(`rust/hyperlane-base/src/settings/deprecated_parser.rs`).

The Rust module converts loosely-typed raw configuration records into
strongly-typed resolved records while accumulating every error it finds,
each tagged with the path of the field it concerns.  The definitions below
are a shallow embedding of that module: configuration paths are lists of
field-name segments, the error accumulator is a list of (path, message)
pairs, and every resolver is a pure Lean function from the raw record and
the current path to `Except` of either the resolved value or the full
error list.  Helpers of the surrounding crates that are not part of the
module under study (the `StrOrInt` coercion helper, address decoding,
`HyperlaneDomain::from_config`, the protocol-specific connection payload
resolvers) are modelled from the specification, as flagged on each such
definition.
-/

/-- A configuration path: the sequence of field names leading to a value,
used only to label errors (`ConfigPath` in the source). -/
abbrev ConfigPath := List String

/-- The error accumulator: a list of (location, message) pairs
(`ConfigParsingError` in the source). -/
abbrev ErrList := List (ConfigPath × String)

/-- The errors carried by a resolver outcome: the accumulated list on
failure, nothing on success. -/
def errsOf {α : Type} : Except ErrList α → ErrList
  | .ok _ => []
  | .error es => es

/-- Modelled from the spec: the coercion helper's input type (`StrOrInt` in
the surrounding crate, not part of the module's own source): a value that
the source document may have encoded as either a quoted string or a bare
integer. -/
inductive StrOrInt where
  | str (s : String)
  | int (i : Int)
  deriving DecidableEq, Repr

/-- Decimal digit characters, used when rendering a number the way a
document would quote it. -/
def digitChar (d : Nat) : Char :=
  match d with
  | 0 => '0' | 1 => '1' | 2 => '2' | 3 => '3' | 4 => '4'
  | 5 => '5' | 6 => '6' | 7 => '7' | 8 => '8' | _ => '9'

/-- Numeric value of a decimal digit character, if it is one. -/
def digitVal (c : Char) : Option Nat :=
  if 48 ≤ c.toNat ∧ c.toNat ≤ 57 then some (c.toNat - 48) else none

/-- Little-endian decimal digits of a number, with explicit fuel so that the
definition is structural and computes by reduction.  `n` itself is always
enough fuel. -/
def decDigitsAux : Nat → Nat → List Nat
  | 0, _ => []
  | fuel + 1, n => if n = 0 then [] else n % 10 :: decDigitsAux fuel (n / 10)

/-- Little-endian decimal digits of `n`, using `n` as fuel. -/
def decDigitsLE (n : Nat) : List Nat := decDigitsAux n n

/-- The quoted decimal string form of a number, as a document would write
it. -/
def decOfNat (n : Nat) : String :=
  if n = 0 then "0" else ⟨(decDigitsLE n).reverse.map digitChar⟩

/-- One step of the decimal parse: fold in one more character, failing on
anything that is not a digit. -/
def decStep (acc : Option Nat) (c : Char) : Option Nat :=
  acc.bind fun a => (digitVal c).map fun d => a * 10 + d

/-- Modelled from the spec: decimal parse of a quoted numeric field (the
string side of the `StrOrInt` coercion, which lives in the surrounding
crate): all characters must be digits and the string must be non-empty. -/
def parseDecString (s : String) : Option Nat :=
  match s.data with
  | [] => none
  | ds => ds.foldl decStep (some 0)

/-- The value denoted by a little-endian list of decimal digits. -/
def decValLE : List Nat → Nat
  | [] => 0
  | d :: ds => d + 10 * decValLE ds

/-- Modelled from the spec: the `StrOrInt → numeric` coercion ("converts to
the required numeric type; any non-numeric string or out-of-range value is
a coercion error").  `bound` is one past the largest representable value of
the required machine-integer type. -/
def strOrIntTryInto (bound : Nat) : StrOrInt → Except String Nat
  | .str s =>
    match parseDecString s with
    | none => .error "Invalid numeric string"
    | some n => if n < bound then .ok n else .error "Out of range"
  | .int i => if 0 ≤ i ∧ i < (bound : Int) then .ok i.toNat else .error "Out of range"

/-- Modelled from the spec: hex decoding of a 32-byte value (`H256` parsing
and `hex_or_base58_to_h256`, both in the surrounding crates).  The model
accepts a `0x`-prefixed 64-hex-digit string; the base58 alphabet of the
real address decoder is omitted, as no property under study depends on the
accepted alphabet, only on success or failure being reported per field. -/
def parseH256Hex (s : String) : Except String Nat :=
  match s.data with
  | '0' :: 'x' :: rest =>
    if rest.length = 64 ∧ rest.all (fun c => (digitVal c).isSome ||
        (97 ≤ c.toNat && c.toNat ≤ 102) || (65 ≤ c.toNat && c.toNat ≤ 70)) then
      .ok (rest.foldl (fun a c =>
        a * 16 + (if 48 ≤ c.toNat ∧ c.toNat ≤ 57 then c.toNat - 48
                  else if 97 ≤ c.toNat then c.toNat - 87 else c.toNat - 55)) 0)
    else .error "Invalid H256 string"
  | _ => .error "Invalid H256 string"

deriving instance DecidableEq for Except

/-- Raw signer record (`DeprecatedRawSignerConf`): an optional type tag and
the optional `key` / `id` / `region` credential fields. -/
structure DeprecatedRawSignerConf where
  signer_type : Option String
  key : Option String
  id : Option String
  region : Option String
  deriving DecidableEq, Repr

/-- Resolved signer (`SignerConf`): a raw hex key, an AWS KMS reference, or
the node-managed signer with no credentials. -/
inductive SignerConf where
  | hexKey (key : Nat)
  | aws (id : String) (region : String)
  | node
  deriving DecidableEq, Repr

/-- The signer resolver (`FromRawConf<DeprecatedRawSignerConf> for
SignerConf`): classifies the record by its explicit type tag first, then by
which credential fields are present. -/
def SignerConf.fromConfigFiltered (raw : DeprecatedRawSignerConf) (cwp : ConfigPath) :
    Except ErrList SignerConf :=
  match raw.signer_type with
  | some t =>
    if t = "hexKey" then
      match raw.key with
      | none => .error [(cwp ++ ["key"], "Missing `key` for HexKey signer")]
      | some k =>
        match parseH256Hex k with
        | .ok h => .ok (.hexKey h)
        | .error m => .error [(cwp ++ ["key"], m)]
    else if t = "aws" then
      match raw.id with
      | none => .error [(cwp ++ ["id"], "Missing `id` for Aws signer")]
      | some i =>
        match raw.region with
        | none => .error [(cwp ++ ["region"], "Missing `region` for Aws signer")]
        | some r => .ok (.aws i r)
    else .error [(cwp ++ ["type"], "Unknown signer type `" ++ t ++ "`")]
  | none =>
    match raw.key with
    | some k =>
      match parseH256Hex k with
      | .ok h => .ok (.hexKey h)
      | .error m => .error [(cwp ++ ["key"], m)]
    | none =>
      if raw.id.isSome || raw.region.isSome then
        match raw.id with
        | none => .error [(cwp ++ ["id"], "Missing `id` for Aws signer")]
        | some i =>
          match raw.region with
          | none => .error [(cwp ++ ["region"], "Missing `region` for Aws signer")]
          | some r => .ok (.aws i r)
      else .ok .node

/-- The blockchain protocols a connection can select. -/
inductive Protocol where
  | ethereum
  | fuel
  | sealevel
  deriving DecidableEq, Repr

/-- Modelled from the spec: a protocol-specific connection payload
("structurally opaque to this module beyond being delegated to the matching
protocol-specific resolver"): the delegated parse either succeeds with an
opaque resolved payload or fails with a message. -/
inductive RawConnPayload where
  | good (v : Nat)
  | bad (msg : String)
  deriving DecidableEq, Repr

/-- Raw protocol-tagged connection (`DeprecatedRawChainConnectionConf`):
the `protocol` discriminator selects the payload variant; an unrecognized
discriminator deserializes to `unknown` (the `#[serde(other)]` arm). -/
inductive DeprecatedRawChainConnectionConf where
  | ethereum (p : RawConnPayload)
  | fuel (p : RawConnPayload)
  | sealevel (p : RawConnPayload)
  | unknown
  deriving DecidableEq, Repr

/-- Resolved connection descriptor (`ChainConnectionConf`). -/
inductive ChainConnectionConf where
  | ethereum (v : Nat)
  | fuel (v : Nat)
  | sealevel (v : Nat)
  deriving DecidableEq, Repr

/-- The protocol tag of a resolved connection. -/
def ChainConnectionConf.protocol : ChainConnectionConf → Protocol
  | .ethereum _ => .ethereum
  | .fuel _ => .fuel
  | .sealevel _ => .sealevel

/-- Modelled from the spec: running the delegated protocol-specific payload
resolver at a given path; a failure is reported at that path. -/
def runDelegated (p : RawConnPayload) (cwp : ConfigPath) : Except ErrList Nat :=
  match p with
  | .good v => .ok v
  | .bad m => .error [(cwp, m)]

/-- The connection resolver (`FromRawConf<DeprecatedRawChainConnectionConf>
for ChainConnectionConf`): known protocols delegate their payload (at
`cwp.connection`); the `unknown` arm fails with "Unknown chain protocol" at
`cwp.protocol`. -/
def ChainConnectionConf.fromConfigFiltered (raw : DeprecatedRawChainConnectionConf)
    (cwp : ConfigPath) : Except ErrList ChainConnectionConf :=
  match raw with
  | .ethereum p => (runDelegated p (cwp ++ ["connection"])).map .ethereum
  | .fuel p => (runDelegated p (cwp ++ ["connection"])).map .fuel
  | .sealevel p => (runDelegated p (cwp ++ ["connection"])).map .sealevel
  | .unknown => .error [(cwp ++ ["protocol"], "Unknown chain protocol")]

/-- Raw core contract addresses (`DeprecatedRawCoreContractAddresses`). -/
structure DeprecatedRawCoreContractAddresses where
  mailbox : Option String
  interchain_gas_paymaster : Option String
  validator_announce : Option String
  deriving DecidableEq, Repr

/-- Resolved core contract addresses (`CoreContractAddresses`): three
required 32-byte addresses. -/
structure CoreContractAddresses where
  mailbox : Nat
  interchain_gas_paymaster : Nat
  validator_announce : Nat
  deriving DecidableEq, Repr

/-- One field of the address resolver (the `parse_addr!` macro body): an
absent field is a "Missing ... core contract address" error at the field's
path, a present one is decoded there. -/
def resolveAddrField (v : Option String) (cwp : ConfigPath) (fieldName fieldText : String) :
    Option Nat × ErrList :=
  match v with
  | none => (none, [(cwp ++ [fieldName], "Missing " ++ fieldText ++ " core contract address")])
  | some s =>
    match parseH256Hex s with
    | .ok h => (some h, [])
    | .error m => (none, [(cwp ++ [fieldName], m)])

/-- The contract-address resolver
(`FromRawConf<DeprecatedRawCoreContractAddresses> for
CoreContractAddresses`): the three fields are attempted independently and
construction needs all three (`cfg_unwrap_all`, modelled from the spec as
failing with every gathered error when a required value is absent). -/
def CoreContractAddresses.fromConfigFiltered (raw : DeprecatedRawCoreContractAddresses)
    (cwp : ConfigPath) : Except ErrList CoreContractAddresses :=
  let mb := resolveAddrField raw.mailbox cwp "mailbox" "mailbox"
  let igp := resolveAddrField raw.interchain_gas_paymaster cwp
    "interchain_gas_paymaster" "interchain gas paymaster"
  let va := resolveAddrField raw.validator_announce cwp
    "validator_announce" "validator announce"
  let err := mb.2 ++ igp.2 ++ va.2
  match mb.1, igp.1, va.1 with
  | some a, some b, some c => if err.isEmpty then .ok ⟨a, b, c⟩ else .error err
  | _, _, _ => .error err

/-- The enumerated indexing strategy (`IndexMode` in the surrounding crate);
modelled from the spec with its documented default variant first. -/
inductive IndexMode where
  | block
  | sequence
  deriving DecidableEq, Repr

/-- Modelled from the spec: parsing the `mode` string of the indexing
window; an unrecognized mode string is an error, not silently defaulted. -/
def parseIndexMode (s : String) : Except String IndexMode :=
  if s = "block" then .ok .block
  else if s = "sequence" then .ok .sequence
  else .error "Invalid mode"

/-- Raw indexing window (`DeprecatedRawIndexSettings`).  The source calls
the first field `from`, which Lean reserves, hence `from_`. -/
structure DeprecatedRawIndexSettings where
  from_ : Option StrOrInt
  chunk : Option StrOrInt
  mode : Option String
  deriving DecidableEq, Repr

/-- Resolved indexing window (`IndexSettings`): start height, chunk size,
indexing mode.  The source calls the first field `from`. -/
structure IndexSettings where
  from_ : Nat
  chunk_size : Nat
  mode : IndexMode
  deriving DecidableEq, Repr

/-- The start-height field of the indexing window: absent means 0; a
present value is coerced, a failure reported at `cwp.from` (the value still
defaulting). -/
def resolveIndexFrom (v : Option StrOrInt) (cwp : ConfigPath) : Nat × ErrList :=
  match v with
  | none => (0, [])
  | some x =>
    match strOrIntTryInto 4294967296 x with
    | .ok n => (n, [])
    | .error m => (0, [(cwp ++ ["from"], m)])

/-- The chunk-size field of the indexing window: absent means 1999; a
present value is coerced, a failure reported at `cwp.chunk`. -/
def resolveIndexChunk (v : Option StrOrInt) (cwp : ConfigPath) : Nat × ErrList :=
  match v with
  | none => (1999, [])
  | some x =>
    match strOrIntTryInto 4294967296 x with
    | .ok n => (n, [])
    | .error m => (1999, [(cwp ++ ["chunk"], m)])

/-- The mode field of the indexing window: absent means the default
variant; an unrecognized mode string is an error at `cwp.mode`. -/
def resolveIndexModeField (v : Option String) (cwp : ConfigPath) : IndexMode × ErrList :=
  match v with
  | none => (.block, [])
  | some s =>
    match parseIndexMode s with
    | .ok mo => (mo, [])
    | .error msg => (.block, [(cwp ++ ["mode"], msg)])

/-- The indexing-window resolver (`FromRawConf<DeprecatedRawIndexSettings>
for IndexSettings`): `from` defaults to 0, `chunk` to 1999, `mode` to its
default variant; each present field is coerced with errors reported at its
own path, no field blocking the others. -/
def IndexSettings.fromConfigFiltered (raw : DeprecatedRawIndexSettings) (cwp : ConfigPath) :
    Except ErrList IndexSettings :=
  let f := resolveIndexFrom raw.from_ cwp
  let c := resolveIndexChunk raw.chunk cwp
  let m := resolveIndexModeField raw.mode cwp
  let err := f.2 ++ c.2 ++ m.2
  if err.isEmpty then .ok ⟨f.1, c.1, m.1⟩ else .error err

/-- Resolved domain identity (`HyperlaneDomain`): numeric id, human name,
and the protocol tag taken from the resolved connection. -/
structure HyperlaneDomain where
  id : Nat
  name : String
  protocol : Protocol
  deriving DecidableEq, Repr

/-- Modelled from the spec: `HyperlaneDomain::from_config` (in the
surrounding crate) computes the domain identity from the required numeric
domain id, the required human name, and the protocol tag; the spec states
no failure condition for the combination itself, so the model always
succeeds. -/
def HyperlaneDomain.fromConfig (id : Nat) (name : String) (protocol : Protocol) :
    HyperlaneDomain :=
  ⟨id, name, protocol⟩

/-- Raw chain record (`DeprecatedRawChainConf`): everything optional, the
connection flattened in as an optional protocol-tagged payload. -/
structure DeprecatedRawChainConf where
  name : Option String
  domain : Option StrOrInt
  signer : Option DeprecatedRawSignerConf
  finality_blocks : Option StrOrInt
  addresses : Option DeprecatedRawCoreContractAddresses
  connection : Option DeprecatedRawChainConnectionConf
  metrics_conf : Option Unit
  index : Option DeprecatedRawIndexSettings
  deriving DecidableEq, Repr

/-- Resolved chain configuration (`ChainConf`). -/
structure ChainConf where
  connection : ChainConnectionConf
  domain : HyperlaneDomain
  addresses : CoreContractAddresses
  signer : Option SignerConf
  finality_blocks : Nat
  index : IndexSettings
  metrics_conf : Unit
  deriving DecidableEq, Repr

/-- The connection field of the chain resolver: an absent connection is a
"Missing `connection` configuration" error at `cwp.connection`; a present
one is resolved (by the connection resolver, which is handed the chain's
own path). -/
def resolveConnectionField (raw : DeprecatedRawChainConf) (cwp : ConfigPath) :
    Option ChainConnectionConf × ErrList :=
  match raw.connection with
  | none => (none, [(cwp ++ ["connection"], "Missing `connection` configuration")])
  | some rc =>
    match ChainConnectionConf.fromConfigFiltered rc cwp with
    | .ok c => (some c, [])
    | .error es => (none, es)

/-- The domain field of the chain resolver.  In the source this whole
computation lives inside `connection.as_ref().and_then(...)`: when the
connection did not resolve, none of the domain-id/name validation runs; when
it did, domain id and name are each validated (errors at `cwp.domain` and
`cwp.name`) and the identity is built from the connection's protocol tag. -/
def resolveDomainField (conn : Option ChainConnectionConf) (raw : DeprecatedRawChainConf)
    (cwp : ConfigPath) : Option HyperlaneDomain × ErrList :=
  match conn with
  | none => (none, [])
  | some c =>
    let di : Option Nat × ErrList :=
      match raw.domain with
      | none => (none, [(cwp ++ ["domain"], "Missing `domain` configuration")])
      | some v =>
        match strOrIntTryInto 4294967296 v with
        | .ok n => (some n, [])
        | .error _ => (none, [(cwp ++ ["domain"], "Invalid domain id, expected integer")])
    let nm : Option String × ErrList :=
      match raw.name with
      | none => (none, [(cwp ++ ["name"], "Missing domain `name` configuration")])
      | some n => (some n, [])
    match di.1, nm.1 with
    | some i, some n => (some (HyperlaneDomain.fromConfig i n c.protocol), di.2 ++ nm.2)
    | _, _ => (none, di.2 ++ nm.2)

/-- The addresses field of the chain resolver: an absent record is a
"Missing `addresses` configuration for core contracts" error at
`cwp.addresses`; a present one is resolved at `cwp.addresses`. -/
def resolveAddressesField (raw : DeprecatedRawChainConf) (cwp : ConfigPath) :
    Option CoreContractAddresses × ErrList :=
  match raw.addresses with
  | none => (none, [(cwp ++ ["addresses"], "Missing `addresses` configuration for core contracts")])
  | some v =>
    match CoreContractAddresses.fromConfigFiltered v (cwp ++ ["addresses"]) with
    | .ok a => (some a, [])
    | .error es => (none, es)

/-- The signer field of the chain resolver: optional, resolved at
`cwp.signer` when present. -/
def resolveSignerField (raw : DeprecatedRawChainConf) (cwp : ConfigPath) :
    Option SignerConf × ErrList :=
  match raw.signer with
  | none => (none, [])
  | some v =>
    match SignerConf.fromConfigFiltered v (cwp ++ ["signer"]) with
    | .ok s => (some s, [])
    | .error es => (none, es)

/-- The finality-depth field of the chain resolver: absent means 0; a
present value is coerced, a coercion failure reported at
`cwp.finality_blocks` (and the value still defaults). -/
def resolveFinalityField (raw : DeprecatedRawChainConf) (cwp : ConfigPath) : Nat × ErrList :=
  match raw.finality_blocks with
  | none => (0, [])
  | some v =>
    match strOrIntTryInto 4294967296 v with
    | .ok n => (n, [])
    | .error _ => (0, [(cwp ++ ["finality_blocks"], "Invalid `finalityBlocks`, expected integer")])

/-- The default indexing window used when the whole `index` record is
absent (modelled from the spec: start height 0, chunk size 1999, default
mode). -/
def defaultIndexSettings : IndexSettings := ⟨0, 1999, .block⟩

/-- The indexing-window field of the chain resolver: absent means the
default window; a present record is resolved at `cwp.index` (falling back
to the default when that resolution fails, with the errors kept). -/
def resolveIndexField (raw : DeprecatedRawChainConf) (cwp : ConfigPath) :
    IndexSettings × ErrList :=
  match raw.index with
  | none => (defaultIndexSettings, [])
  | some v =>
    match IndexSettings.fromConfigFiltered v (cwp ++ ["index"]) with
    | .ok i => (i, [])
    | .error es => (defaultIndexSettings, es)

/-- The chain resolver (`FromRawConf<DeprecatedRawChainConf> for
ChainConf`): the seven fields are attempted in source order, each appending
its own errors; construction needs connection, domain and addresses
(`cfg_unwrap_all`, modelled from the spec as failing with every gathered
error when one of them is absent). -/
def ChainConf.fromConfigFiltered (raw : DeprecatedRawChainConf) (cwp : ConfigPath) :
    Except ErrList ChainConf :=
  let cRes := resolveConnectionField raw cwp
  let dRes := resolveDomainField cRes.1 raw cwp
  let aRes := resolveAddressesField raw cwp
  let sRes := resolveSignerField raw cwp
  let fRes := resolveFinalityField raw cwp
  let iRes := resolveIndexField raw cwp
  let err := cRes.2 ++ dRes.2 ++ aRes.2 ++ sRes.2 ++ fRes.2 ++ iRes.2
  match cRes.1, dRes.1, aRes.1 with
  | some c, some d, some a =>
    if err.isEmpty then .ok ⟨c, d, a, sRes.1, fRes.1, iRes.1, ()⟩ else .error err
  | _, _, _ => .error err

/-- Raw top-level settings (`DeprecatedRawSettings`); the chain map is kept
as an association list. -/
structure DeprecatedRawSettings where
  chains : Option (List (String × DeprecatedRawChainConf))
  defaultsigner : Option DeprecatedRawSignerConf
  metrics : Option StrOrInt
  tracing : Option Unit
  deriving DecidableEq, Repr

/-- Resolved top-level settings (`Settings`). -/
structure Settings where
  chains : List (String × ChainConf)
  metrics_port : Nat
  tracing : Unit
  deriving DecidableEq, Repr

/-- ASCII lower-casing of one character (`char::to_ascii_lowercase`). -/
def asciiLowerChar (c : Char) : Char :=
  if 65 ≤ c.toNat ∧ c.toNat ≤ 90 then Char.ofNat (c.toNat + 32) else c

/-- ASCII lower-casing of a chain key (`str::to_ascii_lowercase`). -/
def toAsciiLowercase (s : String) : String := ⟨s.data.map asciiLowerChar⟩

/-- The metrics-port field of the top-level resolver: absent contributes
nothing; a present value is coerced with a failure reported at
`cwp.metrics`. -/
def resolveMetricsField (m : Option StrOrInt) (cwp : ConfigPath) : Option Nat × ErrList :=
  match m with
  | none => (none, [])
  | some v =>
    match strOrIntTryInto 65536 v with
    | .ok n => (some n, [])
    | .error msg => (none, [(cwp ++ ["metrics"], msg)])

/-- The document-level default signer: resolved at `cwp.defaultsigner` when
present, its errors kept but not blocking anything else. -/
def resolveDefaultSigner (ds : Option DeprecatedRawSignerConf) (cwp : ConfigPath) :
    Option SignerConf × ErrList :=
  match ds with
  | none => (none, [])
  | some r =>
    match SignerConf.fromConfigFiltered r (cwp ++ ["defaultsigner"]) with
    | .ok s => (some s, [])
    | .error es => (none, es)

/-- The retain-filter of the top-level resolver (`chains.retain`): when a
filter is supplied, keep exactly the entries whose original-cased key is a
member of it. -/
def retainChains (filter : Option (List String)) (chains : List (String × DeprecatedRawChainConf)) :
    List (String × DeprecatedRawChainConf) :=
  match filter with
  | some f => chains.filter fun kv => f.contains kv.1
  | none => chains

/-- One entry of the chain map: resolve the chain at
`chains_path.<original key>`, lower-case the key, and substitute the
resolved default signer when the chain has no signer of its own
(`parsed.signer.get_or_insert_with`). -/
def resolveChainEntry (defaultSigner : Option SignerConf) (chainsPath : ConfigPath)
    (kv : String × DeprecatedRawChainConf) : Except ErrList (String × ChainConf) :=
  match ChainConf.fromConfigFiltered kv.2 (chainsPath ++ [kv.1]) with
  | .ok parsed =>
    .ok (toAsciiLowercase kv.1,
      { parsed with signer := match parsed.signer with | some s => some s | none => defaultSigner })
  | .error es => .error es

/-- Walking the (retained) chain map: successes are collected in order,
failures have their errors merged without aborting the other chains. -/
def collectChains (defaultSigner : Option SignerConf) (chainsPath : ConfigPath) :
    List (String × DeprecatedRawChainConf) → List (String × ChainConf) × ErrList
  | [] => ([], [])
  | kv :: rest =>
    let tailRes := collectChains defaultSigner chainsPath rest
    match resolveChainEntry defaultSigner chainsPath kv with
    | .ok p => (p :: tailRes.1, tailRes.2)
    | .error es => (tailRes.1, es ++ tailRes.2)

/-- The top-level settings resolver (`FromRawConf<DeprecatedRawSettings,
Option<&HashSet<&str>>> for Settings`): when a chain map is present the
default signer is resolved first, the retain-filter applied on
original-cased keys, and every remaining chain resolved; when absent the
chain map is empty and the default signer is never touched.  The metrics
port defaults to 9090 and tracing to its default. -/
def Settings.fromConfigFiltered (raw : DeprecatedRawSettings) (cwp : ConfigPath)
    (filter : Option (List String)) : Except ErrList Settings :=
  let chainsRes : List (String × ChainConf) × ErrList :=
    match raw.chains with
    | some chains =>
      let dsRes := resolveDefaultSigner raw.defaultsigner cwp
      let retained := retainChains filter chains
      let collected := collectChains dsRes.1 (cwp ++ ["chains"]) retained
      (collected.1, dsRes.2 ++ collected.2)
    | none => ([], [])
  let mRes := resolveMetricsField raw.metrics cwp
  let err := chainsRes.2 ++ mRes.2
  if err.isEmpty then .ok ⟨chainsRes.1, (mRes.1).getD 9090, ()⟩ else .error err

/-- The signer classification exactly as the specification words it, for
comparison with the source-derived resolver: explicit tag "hexKey" requires
a parseable key; explicit tag "aws" requires both id and region with an
error on whichever is missing (id checked first); any other explicit tag is
an unknown-signer-type error; with no tag a present key is treated as a hex
key, a present id or region as an AWS signer with the missing counterpart
an error, and nothing present as the node-managed signer. -/
def signerSpecClassify (raw : DeprecatedRawSignerConf) (cwp : ConfigPath) :
    Except ErrList SignerConf :=
  match raw.signer_type with
  | some t =>
    if t = "hexKey" then
      match raw.key with
      | some k =>
        match parseH256Hex k with
        | .ok h => .ok (.hexKey h)
        | .error m => .error [(cwp ++ ["key"], m)]
      | none => .error [(cwp ++ ["key"], "Missing `key` for HexKey signer")]
    else if t = "aws" then
      match raw.id, raw.region with
      | none, _ => .error [(cwp ++ ["id"], "Missing `id` for Aws signer")]
      | some _, none => .error [(cwp ++ ["region"], "Missing `region` for Aws signer")]
      | some i, some r => .ok (.aws i r)
    else .error [(cwp ++ ["type"], "Unknown signer type `" ++ t ++ "`")]
  | none =>
    if raw.key.isSome then
      match raw.key with
      | some k =>
        match parseH256Hex k with
        | .ok h => .ok (.hexKey h)
        | .error m => .error [(cwp ++ ["key"], m)]
      | none => .ok .node
    else if raw.id.isSome || raw.region.isSome then
      match raw.id, raw.region with
      | none, _ => .error [(cwp ++ ["id"], "Missing `id` for Aws signer")]
      | some _, none => .error [(cwp ++ ["region"], "Missing `region` for Aws signer")]
      | some i, some r => .ok (.aws i r)
    else .ok .node

/-- A well-formed address string, used by concrete evaluations. -/
def goodAddr : String := "0x0000000000000000000000000000000000000000000000000000000000000001"

/-- A raw address record with all three contracts present and decodable. -/
def goodRawAddrs : DeprecatedRawCoreContractAddresses := ⟨some goodAddr, some goodAddr, some goodAddr⟩

/-- A raw chain record that resolves without errors. -/
def goodRawChain : DeprecatedRawChainConf :=
  ⟨some "foo", some (.int 5), none, none, some goodRawAddrs, some (.ethereum (.good 7)), none, none⟩

/-- The resolved form of `goodRawChain`. -/
def goodChainConf : ChainConf :=
  ⟨.ethereum 7, ⟨5, "foo", .ethereum⟩, ⟨1, 1, 1⟩, none, 0, defaultIndexSettings, ()⟩

/-- A raw chain record with no connection and no domain (addresses fine). -/
def noConnNoDomainChain : DeprecatedRawChainConf :=
  ⟨some "foo", none, none, none, some goodRawAddrs, none, none, none⟩

/-- A raw chain record with an unrecognized protocol discriminator. -/
def unknownProtocolChain : DeprecatedRawChainConf :=
  ⟨some "foo", some (.int 5), none, none, some goodRawAddrs, some .unknown, none, none⟩

/-- A raw signer with a decodable hex key and no type tag. -/
def goodRawSigner : DeprecatedRawSignerConf := ⟨none, some goodAddr, none, none⟩

theorem digitVal_digitChar (d : Nat) (h : d < 10) : digitVal (digitChar d) = some d := by
  interval_cases d <;> decide

theorem decDigitsAux_lt (fuel : Nat) : ∀ n, ∀ d ∈ decDigitsAux fuel n, d < 10 := by
  induction fuel with
  | zero => intro n d hd; simp [decDigitsAux] at hd
  | succ fuel ih =>
    intro n d hd
    by_cases hn : n = 0
    · simp [decDigitsAux, hn] at hd
    · simp only [decDigitsAux, if_neg hn, List.mem_cons] at hd
      rcases hd with h | h
      · subst h; omega
      · exact ih _ _ h

theorem decValLE_decDigitsAux (fuel : Nat) : ∀ n, n ≤ fuel → decValLE (decDigitsAux fuel n) = n := by
  induction fuel with
  | zero => intro n hn; interval_cases n; simp [decDigitsAux, decValLE]
  | succ fuel ih =>
    intro n hn
    by_cases hz : n = 0
    · simp [decDigitsAux, hz, decValLE]
    · have hlt : n / 10 < n := Nat.div_lt_self (by omega) (by omega)
      have hle : n / 10 ≤ fuel := by omega
      simp only [decDigitsAux, if_neg hz, decValLE, ih (n / 10) hle]
      omega

theorem foldl_decStep (ds : List Nat) : ∀ a : Nat, (∀ d ∈ ds, d < 10) →
    (ds.reverse.map digitChar).foldl decStep (some a) = some (a * 10 ^ ds.length + decValLE ds) := by
  induction ds with
  | nil => intro a _; simp [decValLE]
  | cons d rest ih =>
    intro a hds
    have hd : d < 10 := hds d (List.mem_cons_self d rest)
    have hrest : ∀ x ∈ rest, x < 10 := fun x hx => hds x (List.mem_cons_of_mem d hx)
    have h1 : (d :: rest).reverse.map digitChar = rest.reverse.map digitChar ++ [digitChar d] := by
      simp
    rw [h1, List.foldl_append, ih a hrest]
    simp [decStep, digitVal_digitChar d hd, decValLE, List.length_cons]
    ring

theorem parseDecString_decOfNat (n : Nat) : parseDecString (decOfNat n) = some n := by
  by_cases hz : n = 0
  · subst hz; decide
  · have hne : decDigitsLE n ≠ [] := by
      cases n with
      | zero => exact absurd rfl hz
      | succ m => simp [decDigitsLE, decDigitsAux]
    have hfold := foldl_decStep (decDigitsLE n) 0 (decDigitsAux_lt n n)
    have hval : decValLE (decDigitsLE n) = n := decValLE_decDigitsAux n n le_rfl
    have hdata : (decOfNat n) = ⟨(decDigitsLE n).reverse.map digitChar⟩ := by
      simp [decOfNat, hz]
    rw [hdata]
    have hne' : (decDigitsLE n).reverse.map digitChar ≠ [] := by
      simp only [ne_eq, List.map_eq_nil_iff, List.reverse_eq_nil_iff]
      exact hne
    cases hl : (decDigitsLE n).reverse.map digitChar with
    | nil => exact absurd hl hne'
    | cons c cs =>
      show (c :: cs).foldl decStep (some 0) = some n
      rw [← hl, hfold, hval]
      simp

theorem signer_errs_shape (raw : DeprecatedRawSignerConf) (cwp : ConfigPath)
    (e : ConfigPath × String) (h : e ∈ errsOf (SignerConf.fromConfigFiltered raw cwp)) :
    e.1 = cwp ++ ["key"] ∨ e.1 = cwp ++ ["id"] ∨ e.1 = cwp ++ ["region"] ∨ e.1 = cwp ++ ["type"] := by
  unfold SignerConf.fromConfigFiltered at h
  repeat' split at h
  all_goals simp [errsOf] at h
  all_goals subst h
  all_goals simp

theorem conn_errs_shape (rc : DeprecatedRawChainConnectionConf) (cwp : ConfigPath)
    (e : ConfigPath × String) (h : e ∈ errsOf (ChainConnectionConf.fromConfigFiltered rc cwp)) :
    e.1 = cwp ++ ["connection"] ∨ e.1 = cwp ++ ["protocol"] := by
  unfold ChainConnectionConf.fromConfigFiltered runDelegated at h
  repeat' split at h
  all_goals simp [errsOf, Except.map] at h
  all_goals subst h
  all_goals simp

theorem conn_error_ne_nil (rc : DeprecatedRawChainConnectionConf) (cwp : ConfigPath)
    (es : ErrList) (h : ChainConnectionConf.fromConfigFiltered rc cwp = .error es) : es ≠ [] := by
  intro hnil
  subst hnil
  unfold ChainConnectionConf.fromConfigFiltered runDelegated at h
  repeat' split at h
  all_goals simp [Except.map] at h

theorem addrField_errs_shape (v : Option String) (cwp : ConfigPath) (fn ft : String)
    (e : ConfigPath × String) (h : e ∈ (resolveAddrField v cwp fn ft).2) :
    e.1 = cwp ++ [fn] := by
  unfold resolveAddrField at h
  repeat' split at h
  all_goals simp at h
  all_goals subst h
  all_goals simp

theorem addrField_none (v : Option String) (cwp : ConfigPath) (fn ft : String)
    (h : (resolveAddrField v cwp fn ft).1 = none) : (resolveAddrField v cwp fn ft).2 ≠ [] := by
  unfold resolveAddrField at *
  cases v with
  | none => simp
  | some s =>
    cases hp : parseH256Hex s with
    | ok x => simp [hp] at h
    | error m => simp [hp]


theorem coreAddr_errs_shape (raw : DeprecatedRawCoreContractAddresses) (cwp : ConfigPath)
    (e : ConfigPath × String) (h : e ∈ errsOf (CoreContractAddresses.fromConfigFiltered raw cwp)) :
    ∃ fn, e.1 = cwp ++ [fn] := by
  unfold CoreContractAddresses.fromConfigFiltered at h
  rcases hmb : (resolveAddrField raw.mailbox cwp "mailbox" "mailbox").1 with _ | a <;>
    rcases higp : (resolveAddrField raw.interchain_gas_paymaster cwp
      "interchain_gas_paymaster" "interchain gas paymaster").1 with _ | b <;>
    rcases hva : (resolveAddrField raw.validator_announce cwp
      "validator_announce" "validator announce").1 with _ | c <;>
    simp only [hmb, higp, hva] at h
  all_goals try split at h
  all_goals simp only [errsOf] at h
  all_goals try exact absurd h (List.not_mem_nil e)
  all_goals (
    rcases List.mem_append.mp h with h | h
    · rcases List.mem_append.mp h with h | h
      · exact ⟨_, addrField_errs_shape _ _ _ _ _ h⟩
      · exact ⟨_, addrField_errs_shape _ _ _ _ _ h⟩
    · exact ⟨_, addrField_errs_shape _ _ _ _ _ h⟩)

theorem coreAddr_error_ne_nil (raw : DeprecatedRawCoreContractAddresses) (cwp : ConfigPath)
    (es : ErrList) (h : CoreContractAddresses.fromConfigFiltered raw cwp = .error es) : es ≠ [] := by
  intro hnil
  subst hnil
  unfold CoreContractAddresses.fromConfigFiltered at h
  have h1 := addrField_none raw.mailbox cwp "mailbox" "mailbox"
  have h2 := addrField_none raw.interchain_gas_paymaster cwp
    "interchain_gas_paymaster" "interchain gas paymaster"
  have h3 := addrField_none raw.validator_announce cwp
    "validator_announce" "validator announce"
  rcases hmb : (resolveAddrField raw.mailbox cwp "mailbox" "mailbox").1 with _ | a <;>
    rcases higp : (resolveAddrField raw.interchain_gas_paymaster cwp
      "interchain_gas_paymaster" "interchain gas paymaster").1 with _ | b <;>
    rcases hva : (resolveAddrField raw.validator_announce cwp
      "validator_announce" "validator announce").1 with _ | c <;>
    simp only [hmb, higp, hva] at h
  all_goals try split at h
  all_goals simp_all

theorem indexFrom_errs_shape (v : Option StrOrInt) (cwp : ConfigPath) (e : ConfigPath × String)
    (h : e ∈ (resolveIndexFrom v cwp).2) : e.1 = cwp ++ ["from"] := by
  unfold resolveIndexFrom at h
  repeat' split at h
  all_goals simp at h
  all_goals (subst h; simp)

theorem indexChunk_errs_shape (v : Option StrOrInt) (cwp : ConfigPath) (e : ConfigPath × String)
    (h : e ∈ (resolveIndexChunk v cwp).2) : e.1 = cwp ++ ["chunk"] := by
  unfold resolveIndexChunk at h
  repeat' split at h
  all_goals simp at h
  all_goals (subst h; simp)

theorem indexMode_errs_shape (v : Option String) (cwp : ConfigPath) (e : ConfigPath × String)
    (h : e ∈ (resolveIndexModeField v cwp).2) : e.1 = cwp ++ ["mode"] := by
  unfold resolveIndexModeField at h
  repeat' split at h
  all_goals simp at h
  all_goals (subst h; simp)

theorem index_errs_shape (raw : DeprecatedRawIndexSettings) (cwp : ConfigPath)
    (e : ConfigPath × String) (h : e ∈ errsOf (IndexSettings.fromConfigFiltered raw cwp)) :
    e.1 = cwp ++ ["from"] ∨ e.1 = cwp ++ ["chunk"] ∨ e.1 = cwp ++ ["mode"] := by
  simp only [IndexSettings.fromConfigFiltered] at h
  split at h
  · simp [errsOf] at h
  · simp only [errsOf] at h
    rcases List.mem_append.mp h with h | h
    · rcases List.mem_append.mp h with h | h
      · exact Or.inl (indexFrom_errs_shape _ _ _ h)
      · exact Or.inr (Or.inl (indexChunk_errs_shape _ _ _ h))
    · exact Or.inr (Or.inr (indexMode_errs_shape _ _ _ h))

theorem index_ok_inv (raw : DeprecatedRawIndexSettings) (cwp : ConfigPath) (i : IndexSettings)
    (h : IndexSettings.fromConfigFiltered raw cwp = .ok i) :
    i = ⟨(resolveIndexFrom raw.from_ cwp).1, (resolveIndexChunk raw.chunk cwp).1,
      (resolveIndexModeField raw.mode cwp).1⟩ := by
  simp only [IndexSettings.fromConfigFiltered] at h
  split at h
  · exact ((Except.ok.injEq _ _).mp h).symm
  · exact absurd h (by simp)

theorem connField_errs_shape (raw : DeprecatedRawChainConf) (cwp : ConfigPath)
    (e : ConfigPath × String) (h : e ∈ (resolveConnectionField raw cwp).2) :
    e.1 = cwp ++ ["connection"] ∨ e.1 = cwp ++ ["protocol"] := by
  unfold resolveConnectionField at h
  cases hc : raw.connection with
  | none =>
    simp [hc] at h
    subst h
    simp
  | some rc =>
    simp only [hc] at h
    cases hr : ChainConnectionConf.fromConfigFiltered rc cwp with
    | ok c => simp [hr] at h
    | error es =>
      simp only [hr] at h
      exact conn_errs_shape rc cwp e (by simpa [errsOf, hr] using h)

theorem connField_none_ne_nil (raw : DeprecatedRawChainConf) (cwp : ConfigPath)
    (h : (resolveConnectionField raw cwp).1 = none) : (resolveConnectionField raw cwp).2 ≠ [] := by
  unfold resolveConnectionField at *
  cases hc : raw.connection with
  | none => simp [hc]
  | some rc =>
    simp only [hc] at h ⊢
    cases hr : ChainConnectionConf.fromConfigFiltered rc cwp with
    | ok c => simp [hr] at h
    | error es =>
      simp only [hr]
      exact conn_error_ne_nil rc cwp es hr

theorem domainField_errs_shape (conn : Option ChainConnectionConf) (raw : DeprecatedRawChainConf)
    (cwp : ConfigPath) (e : ConfigPath × String) (h : e ∈ (resolveDomainField conn raw cwp).2) :
    e.1 = cwp ++ ["domain"] ∨ e.1 = cwp ++ ["name"] := by
  unfold resolveDomainField at h
  cases conn with
  | none => simp at h
  | some c =>
    rcases hd : raw.domain with _ | v <;> rcases hn : raw.name with _ | nm <;>
      simp only [hd, hn] at h <;>
      try (rcases ht : strOrIntTryInto 4294967296 v with m | n <;> simp only [ht] at h)
    all_goals simp at h
    all_goals first
      | (rcases h with h | h <;> (subst h; simp))
      | (subst h; simp)

theorem domainField_none_ne_nil (c : ChainConnectionConf) (raw : DeprecatedRawChainConf)
    (cwp : ConfigPath) (h : (resolveDomainField (some c) raw cwp).1 = none) :
    (resolveDomainField (some c) raw cwp).2 ≠ [] := by
  unfold resolveDomainField at *
  rcases hd : raw.domain with _ | v <;> rcases hn : raw.name with _ | nm <;>
    simp only [hd, hn] at h ⊢ <;>
    try (rcases ht : strOrIntTryInto 4294967296 v with m | n <;> simp only [ht] at h ⊢)
  all_goals simp_all

theorem addressesField_errs_shape (raw : DeprecatedRawChainConf) (cwp : ConfigPath)
    (e : ConfigPath × String) (h : e ∈ (resolveAddressesField raw cwp).2) :
    ∃ r, e.1 = cwp ++ ("addresses" :: r) := by
  unfold resolveAddressesField at h
  cases ha : raw.addresses with
  | none =>
    simp [ha] at h
    exact ⟨[], by rw [h]⟩
  | some v =>
    simp only [ha] at h
    cases hr : CoreContractAddresses.fromConfigFiltered v (cwp ++ ["addresses"]) with
    | ok a => simp [hr] at h
    | error es =>
      simp only [hr] at h
      obtain ⟨fn, hfn⟩ := coreAddr_errs_shape v (cwp ++ ["addresses"]) e (by simpa [errsOf, hr] using h)
      exact ⟨[fn], by rw [hfn]; simp⟩

theorem addressesField_none_ne_nil (raw : DeprecatedRawChainConf) (cwp : ConfigPath)
    (h : (resolveAddressesField raw cwp).1 = none) : (resolveAddressesField raw cwp).2 ≠ [] := by
  unfold resolveAddressesField at *
  cases ha : raw.addresses with
  | none => simp [ha]
  | some v =>
    simp only [ha] at h ⊢
    cases hr : CoreContractAddresses.fromConfigFiltered v (cwp ++ ["addresses"]) with
    | ok a => simp [hr] at h
    | error es =>
      simp only [hr]
      exact coreAddr_error_ne_nil v (cwp ++ ["addresses"]) es hr

theorem signerField_errs_shape (raw : DeprecatedRawChainConf) (cwp : ConfigPath)
    (e : ConfigPath × String) (h : e ∈ (resolveSignerField raw cwp).2) :
    ∃ r, e.1 = cwp ++ ("signer" :: r) := by
  unfold resolveSignerField at h
  cases hs : raw.signer with
  | none => simp [hs] at h
  | some v =>
    simp only [hs] at h
    cases hr : SignerConf.fromConfigFiltered v (cwp ++ ["signer"]) with
    | ok s => simp [hr] at h
    | error es =>
      simp only [hr] at h
      have := signer_errs_shape v (cwp ++ ["signer"]) e (by simpa [errsOf, hr] using h)
      rcases this with h' | h' | h' | h'
      · exact ⟨["key"], by rw [h']; simp⟩
      · exact ⟨["id"], by rw [h']; simp⟩
      · exact ⟨["region"], by rw [h']; simp⟩
      · exact ⟨["type"], by rw [h']; simp⟩

theorem finalityField_errs_shape (raw : DeprecatedRawChainConf) (cwp : ConfigPath)
    (e : ConfigPath × String) (h : e ∈ (resolveFinalityField raw cwp).2) :
    e.1 = cwp ++ ["finality_blocks"] := by
  unfold resolveFinalityField at h
  repeat' split at h
  all_goals simp at h
  all_goals (subst h; simp)

theorem indexField_errs_shape (raw : DeprecatedRawChainConf) (cwp : ConfigPath)
    (e : ConfigPath × String) (h : e ∈ (resolveIndexField raw cwp).2) :
    ∃ r, e.1 = cwp ++ ("index" :: r) := by
  unfold resolveIndexField at h
  cases hi : raw.index with
  | none => simp [hi] at h
  | some v =>
    simp only [hi] at h
    cases hr : IndexSettings.fromConfigFiltered v (cwp ++ ["index"]) with
    | ok i => simp [hr] at h
    | error es =>
      simp only [hr] at h
      have := index_errs_shape v (cwp ++ ["index"]) e (by simpa [errsOf, hr] using h)
      rcases this with h' | h' | h'
      · exact ⟨["from"], by rw [h']; simp⟩
      · exact ⟨["chunk"], by rw [h']; simp⟩
      · exact ⟨["mode"], by rw [h']; simp⟩

theorem metricsField_errs_shape (m : Option StrOrInt) (cwp : ConfigPath) (e : ConfigPath × String)
    (h : e ∈ (resolveMetricsField m cwp).2) : e.1 = cwp ++ ["metrics"] := by
  unfold resolveMetricsField at h
  repeat' split at h
  all_goals simp at h
  all_goals (subst h; simp)

theorem defaultSigner_errs_shape (ds : Option DeprecatedRawSignerConf) (cwp : ConfigPath)
    (e : ConfigPath × String) (h : e ∈ (resolveDefaultSigner ds cwp).2) :
    ∃ r, e.1 = cwp ++ ("defaultsigner" :: r) := by
  unfold resolveDefaultSigner at h
  cases hd : ds with
  | none => simp [hd] at h
  | some r =>
    simp only [hd] at h
    cases hr : SignerConf.fromConfigFiltered r (cwp ++ ["defaultsigner"]) with
    | ok s => simp [hr] at h
    | error es =>
      simp only [hr] at h
      have := signer_errs_shape r (cwp ++ ["defaultsigner"]) e (by simp [errsOf, hr]; exact h)
      rcases this with h' | h' | h' | h'
      · exact ⟨["key"], by rw [h']; simp⟩
      · exact ⟨["id"], by rw [h']; simp⟩
      · exact ⟨["region"], by rw [h']; simp⟩
      · exact ⟨["type"], by rw [h']; simp⟩

theorem chain_errs_sub (raw : DeprecatedRawChainConf) (cwp : ConfigPath) (e : ConfigPath × String)
    (h : e ∈ errsOf (ChainConf.fromConfigFiltered raw cwp)) :
    e ∈ (resolveConnectionField raw cwp).2 ++
      (resolveDomainField (resolveConnectionField raw cwp).1 raw cwp).2 ++
      (resolveAddressesField raw cwp).2 ++
      (resolveSignerField raw cwp).2 ++
      (resolveFinalityField raw cwp).2 ++
      (resolveIndexField raw cwp).2 := by
  simp only [ChainConf.fromConfigFiltered] at h
  repeat' split at h
  all_goals simp only [errsOf] at h
  all_goals first
    | exact absurd h (List.not_mem_nil e)
    | exact h

theorem chain_ok_inv (raw : DeprecatedRawChainConf) (cwp : ConfigPath) (c : ChainConf)
    (h : ChainConf.fromConfigFiltered raw cwp = .ok c) :
    (resolveConnectionField raw cwp).2 = [] ∧
    (resolveDomainField (resolveConnectionField raw cwp).1 raw cwp).2 = [] ∧
    (resolveAddressesField raw cwp).2 = [] ∧
    (resolveSignerField raw cwp).2 = [] ∧
    (resolveFinalityField raw cwp).2 = [] ∧
    (resolveIndexField raw cwp).2 = [] ∧
    c.signer = (resolveSignerField raw cwp).1 ∧
    c.finality_blocks = (resolveFinalityField raw cwp).1 ∧
    c.index = (resolveIndexField raw cwp).1 ∧
    (resolveConnectionField raw cwp).1 = some c.connection ∧
    (resolveDomainField (resolveConnectionField raw cwp).1 raw cwp).1 = some c.domain ∧
    (resolveAddressesField raw cwp).1 = some c.addresses := by
  simp only [ChainConf.fromConfigFiltered] at h
  rcases hc1 : (resolveConnectionField raw cwp).1 with _ | cc
  · simp only [hc1, resolveDomainField] at h
    exact Except.noConfusion h
  · simp only [hc1] at h ⊢
    rcases hd1 : (resolveDomainField (some cc) raw cwp).1 with _ | d <;>
      rcases ha1 : (resolveAddressesField raw cwp).1 with _ | a <;>
      simp only [hd1, ha1] at h
    all_goals try exact Except.noConfusion h
    split at h
    · rename_i hempty
      injection h with h'
      subst h'
      simp only [List.isEmpty_iff, List.append_eq_nil] at hempty
      obtain ⟨⟨⟨⟨⟨e1, e2⟩, e3⟩, e4⟩, e5⟩, e6⟩ := hempty
      exact ⟨e1, e2, e3, e4, e5, e6, rfl, rfl, rfl, rfl, rfl, rfl⟩
    · exact Except.noConfusion h

theorem chain_error_ne_nil (raw : DeprecatedRawChainConf) (cwp : ConfigPath) (es : ErrList)
    (h : ChainConf.fromConfigFiltered raw cwp = .error es) : es ≠ [] := by
  intro hnil
  subst hnil
  simp only [ChainConf.fromConfigFiltered] at h
  rcases hc1 : (resolveConnectionField raw cwp).1 with _ | cc
  · simp only [hc1, resolveDomainField] at h
    simp at h
    exact connField_none_ne_nil raw cwp hc1 h.1
  · simp only [hc1] at h
    rcases hd1 : (resolveDomainField (some cc) raw cwp).1 with _ | d <;>
      rcases ha1 : (resolveAddressesField raw cwp).1 with _ | a <;>
      simp only [hd1, ha1] at h
    all_goals try split at h
    all_goals simp at h
    all_goals first
      | exact addressesField_none_ne_nil raw cwp ha1 h.2.2.1
      | exact domainField_none_ne_nil cc raw cwp hd1 h.2.1
      | simp_all

theorem chain_errs_prefix (raw : DeprecatedRawChainConf) (cwp : ConfigPath) (e : ConfigPath × String)
    (h : e ∈ errsOf (ChainConf.fromConfigFiltered raw cwp)) : ∃ r, e.1 = cwp ++ r := by
  have h6 := chain_errs_sub raw cwp e h
  simp only [List.mem_append] at h6
  rcases h6 with ((((h | h) | h) | h) | h) | h
  · rcases connField_errs_shape raw cwp e h with h' | h' <;> exact ⟨_, h'⟩
  · rcases domainField_errs_shape _ raw cwp e h with h' | h' <;> exact ⟨_, h'⟩
  · obtain ⟨r, h'⟩ := addressesField_errs_shape raw cwp e h
    exact ⟨_, h'⟩
  · obtain ⟨r, h'⟩ := signerField_errs_shape raw cwp e h
    exact ⟨_, h'⟩
  · exact ⟨_, finalityField_errs_shape raw cwp e h⟩
  · obtain ⟨r, h'⟩ := indexField_errs_shape raw cwp e h
    exact ⟨_, h'⟩

theorem collectChains_errs (ds : Option SignerConf) (p : ConfigPath)
    (l : List (String × DeprecatedRawChainConf)) (e : ConfigPath × String)
    (h : e ∈ (collectChains ds p l).2) :
    ∃ kv, kv ∈ l ∧ e ∈ errsOf (ChainConf.fromConfigFiltered kv.2 (p ++ [kv.1])) := by
  induction l with
  | nil => simp [collectChains] at h
  | cons kv rest ih =>
    simp only [collectChains] at h
    cases hr : resolveChainEntry ds p kv with
    | ok pr =>
      simp only [hr] at h
      obtain ⟨kv', hkv', he⟩ := ih h
      exact ⟨kv', List.mem_cons_of_mem _ hkv', he⟩
    | error es =>
      simp only [hr] at h
      rcases List.mem_append.mp h with h | h
      · refine ⟨kv, List.mem_cons_self _ _, ?_⟩
        unfold resolveChainEntry at hr
        cases hcr : ChainConf.fromConfigFiltered kv.2 (p ++ [kv.1]) with
        | ok _ => simp [hcr] at hr
        | error es' =>
          simp only [hcr] at hr
          injection hr with hr'
          subst hr'
          simpa [errsOf, hcr] using h
      · obtain ⟨kv', hkv', he⟩ := ih h
        exact ⟨kv', List.mem_cons_of_mem _ hkv', he⟩

theorem collectChains_ok_keys (ds : Option SignerConf) (p : ConfigPath)
    (l : List (String × DeprecatedRawChainConf)) (h : (collectChains ds p l).2 = []) :
    (collectChains ds p l).1.map Prod.fst = l.map fun kv => toAsciiLowercase kv.1 := by
  induction l with
  | nil => simp [collectChains]
  | cons kv rest ih =>
    simp only [collectChains] at h ⊢
    cases hr : resolveChainEntry ds p kv with
    | ok pr =>
      simp only [hr] at h ⊢
      unfold resolveChainEntry at hr
      cases hcr : ChainConf.fromConfigFiltered kv.2 (p ++ [kv.1]) with
      | error es => simp [hcr] at hr
      | ok c =>
        simp only [hcr] at hr
        injection hr with hr'
        simp [List.map_cons, ih h, ← hr']
    | error es =>
      simp only [hr] at h
      have hne : es ≠ [] := by
        unfold resolveChainEntry at hr
        cases hcr : ChainConf.fromConfigFiltered kv.2 (p ++ [kv.1]) with
        | ok c => simp [hcr] at hr
        | error es' =>
          simp only [hcr] at hr
          injection hr with hr'
          subst hr'
          exact chain_error_ne_nil _ _ _ hcr
      rw [List.append_eq_nil] at h
      exact absurd h.1 hne

theorem settings_errs_shape (raw : DeprecatedRawSettings) (cwp : ConfigPath)
    (filter : Option (List String)) (e : ConfigPath × String)
    (h : e ∈ errsOf (Settings.fromConfigFiltered raw cwp filter)) :
    (∃ r, e.1 = cwp ++ ("defaultsigner" :: r)) ∨ e.1 = cwp ++ ["metrics"] ∨
    (∃ kv, kv ∈ retainChains filter (raw.chains.getD []) ∧
      ∃ r, e.1 = cwp ++ ("chains" :: kv.1 :: r)) := by
  simp only [Settings.fromConfigFiltered] at h
  cases hch : raw.chains with
  | none =>
    simp only [hch] at h
    split at h
    · simp [errsOf] at h
    · simp only [errsOf] at h
      rw [List.nil_append] at h
      exact Or.inr (Or.inl (metricsField_errs_shape _ _ _ h))
  | some m =>
    simp only [hch] at h
    split at h
    · simp [errsOf] at h
    · simp only [errsOf] at h
      rcases List.mem_append.mp h with h | h
      · rcases List.mem_append.mp h with h | h
        · exact Or.inl (defaultSigner_errs_shape _ _ _ h)
        · obtain ⟨kv, hkv, he⟩ := collectChains_errs _ _ _ _ h
          obtain ⟨r, hr⟩ := chain_errs_prefix _ _ _ he
          refine Or.inr (Or.inr ⟨kv, by simpa [hch] using hkv, ⟨r, ?_⟩⟩)
          rw [hr]
          simp
      · exact Or.inr (Or.inl (metricsField_errs_shape _ _ _ h))

theorem settings_ok_inv (raw : DeprecatedRawSettings) (cwp : ConfigPath)
    (filter : Option (List String)) (s : Settings)
    (h : Settings.fromConfigFiltered raw cwp filter = .ok s) :
    s.chains = (match raw.chains with
      | some m => (collectChains (resolveDefaultSigner raw.defaultsigner cwp).1
          (cwp ++ ["chains"]) (retainChains filter m)).1
      | none => []) ∧
    s.metrics_port = ((resolveMetricsField raw.metrics cwp).1).getD 9090 ∧
    (match raw.chains with
      | some m => (resolveDefaultSigner raw.defaultsigner cwp).2 = [] ∧
          (collectChains (resolveDefaultSigner raw.defaultsigner cwp).1
            (cwp ++ ["chains"]) (retainChains filter m)).2 = []
      | none => True) ∧
    (resolveMetricsField raw.metrics cwp).2 = [] := by
  simp only [Settings.fromConfigFiltered] at h
  cases hch : raw.chains with
  | none =>
    simp only [hch] at h
    split at h
    · rename_i hempty
      injection h with h'
      subst h'
      simp only [List.isEmpty_iff, List.nil_append] at hempty
      exact ⟨rfl, rfl, trivial, hempty⟩
    · exact Except.noConfusion h
  | some m =>
    simp only [hch] at h
    split at h
    · rename_i hempty
      injection h with h'
      subst h'
      simp only [List.isEmpty_iff, List.append_eq_nil] at hempty
      obtain ⟨⟨e1, e2⟩, e3⟩ := hempty
      exact ⟨rfl, rfl, ⟨e1, e2⟩, e3⟩
    · exact Except.noConfusion h

theorem path_head_ne (cwp : ConfigPath) (f g : String) (r : List String) (hfg : f ≠ g) :
    cwp ++ (f :: r) ≠ cwp ++ [g] := by
  intro he
  have h' := List.append_cancel_left he
  simp only [List.cons.injEq] at h'
  exact hfg h'.1

/-- C3: the signer resolver classifies a raw signer record exactly in the
priority order the specification states: explicit tag "hexKey" (parseable
key required), explicit tag "aws" (id and region required, the missing one
reported), any other explicit tag an unknown-signer-type error, then
implicit classification by presence of key, id or region, and finally the
node-managed signer when nothing is present. -/
theorem C3_signer_inference (raw : DeprecatedRawSignerConf) (cwp : ConfigPath) :
    SignerConf.fromConfigFiltered raw cwp = signerSpecClassify raw cwp := by
  rcases raw with ⟨st, key, id, region⟩
  unfold SignerConf.fromConfigFiltered signerSpecClassify
  rcases st with _ | t
  · cases key <;> cases id <;> cases region <;> simp
  · by_cases h1 : t = "hexKey"
    · subst h1
      cases key <;> simp
    · by_cases h2 : t = "aws"
      · subst h2
        cases id <;> cases region <;> simp [h1]
      · simp [h1, h2]

/-- C1 counterexample: a raw signer tagged "aws" with both `id` and
`region` absent produces an aggregate containing only the `id` entry — the
signer resolver short-circuits, so the claim's two-entries guarantee fails
inside its scope. -/
theorem C1_counterexample :
    SignerConf.fromConfigFiltered ⟨some "aws", none, none, none⟩ ["signer"] =
      .error [(["signer", "id"], "Missing `id` for Aws signer")] := by decide

/-- C1 (amended): in the contract-address resolver two absent required
addresses are both reported at their own paths, and in the chain resolver a
missing `domain` (with the connection resolving) and a missing `addresses`
record are both reported; the signer resolver, however, stops at its first
missing field (see the counterexample). -/
theorem C1_two_missing_both_reported :
    (∀ (raw : DeprecatedRawCoreContractAddresses) (cwp : ConfigPath),
      raw.mailbox = none → raw.validator_announce = none →
      (cwp ++ ["mailbox"], "Missing mailbox core contract address")
          ∈ errsOf (CoreContractAddresses.fromConfigFiltered raw cwp) ∧
      (cwp ++ ["validator_announce"], "Missing validator announce core contract address")
          ∈ errsOf (CoreContractAddresses.fromConfigFiltered raw cwp)) ∧
    (∀ (raw : DeprecatedRawChainConf) (cwp : ConfigPath) (rc : DeprecatedRawChainConnectionConf),
      raw.connection = some rc → (ChainConnectionConf.fromConfigFiltered rc cwp).isOk = true →
      raw.domain = none → raw.addresses = none →
      (cwp ++ ["domain"], "Missing `domain` configuration")
          ∈ errsOf (ChainConf.fromConfigFiltered raw cwp) ∧
      (cwp ++ ["addresses"], "Missing `addresses` configuration for core contracts")
          ∈ errsOf (ChainConf.fromConfigFiltered raw cwp)) := by
  constructor
  · intro raw cwp hm hv
    simp only [CoreContractAddresses.fromConfigFiltered, resolveAddrField, hm, hv]
    constructor <;> simp [errsOf]
  · intro raw cwp rc hc hok hd ha
    cases hr : ChainConnectionConf.fromConfigFiltered rc cwp with
    | error es => rw [hr] at hok; simp [Except.isOk, Except.toBool] at hok
    | ok c =>
      simp only [ChainConf.fromConfigFiltered, resolveConnectionField, resolveDomainField,
        resolveAddressesField, hc, hr, hd, ha]
      constructor <;> simp [errsOf]

/-- C1 witness: concrete records exercising both parts of the amended
claim. -/
theorem C1_witness :
    ((["x", "mailbox"], "Missing mailbox core contract address")
        ∈ errsOf (CoreContractAddresses.fromConfigFiltered ⟨none, some goodAddr, none⟩ ["x"]) ∧
     (["x", "validator_announce"], "Missing validator announce core contract address")
        ∈ errsOf (CoreContractAddresses.fromConfigFiltered ⟨none, some goodAddr, none⟩ ["x"])) ∧
    ((["y", "domain"], "Missing `domain` configuration")
        ∈ errsOf (ChainConf.fromConfigFiltered
          ⟨some "foo", none, none, none, none, some (.ethereum (.good 7)), none, none⟩ ["y"]) ∧
     (["y", "addresses"], "Missing `addresses` configuration for core contracts")
        ∈ errsOf (ChainConf.fromConfigFiltered
          ⟨some "foo", none, none, none, none, some (.ethereum (.good 7)), none, none⟩ ["y"])) :=
  ⟨C1_two_missing_both_reported.1 ⟨none, some goodAddr, none⟩ ["x"] rfl rfl,
   C1_two_missing_both_reported.2
     ⟨some "foo", none, none, none, none, some (.ethereum (.good 7)), none, none⟩ ["y"]
     (.ethereum (.good 7)) rfl (by decide) rfl rfl⟩

/-- C2 counterexample: a chain record with both the connection and the
`domain` field absent (addresses valid) resolves to an aggregate holding
only the missing-connection entry — no `chains.k.domain` entry is reported,
contrary to the claim. -/
theorem C2_counterexample :
    ChainConf.fromConfigFiltered noConnNoDomainChain ["chains", "k"] =
      .error [(["chains", "k", "connection"], "Missing `connection` configuration")] := by
  decide

/-- C2 (amended): connection resolution is attempted first, and whenever it
fails — the connection absent, or present but failing to resolve (unknown
protocol tag, bad payload) — the `domain` and `name` fields are not
validated at all: no entry at `cwp.domain` or `cwp.name` can appear in the
aggregate (for an absent connection the aggregate holds the
missing-connection entry); only when the connection resolves is a missing
`domain` reported at its own path. -/
theorem C2_domain_needs_connection :
    (∀ (raw : DeprecatedRawChainConf) (cwp : ConfigPath), raw.connection = none →
      (cwp ++ ["connection"], "Missing `connection` configuration")
          ∈ errsOf (ChainConf.fromConfigFiltered raw cwp)) ∧
    (∀ (raw : DeprecatedRawChainConf) (cwp : ConfigPath),
      (raw.connection = none ∨ ∃ rc es, raw.connection = some rc ∧
        ChainConnectionConf.fromConfigFiltered rc cwp = .error es) →
      ∀ e ∈ errsOf (ChainConf.fromConfigFiltered raw cwp),
        e.1 ≠ cwp ++ ["domain"] ∧ e.1 ≠ cwp ++ ["name"]) ∧
    (∀ (raw : DeprecatedRawChainConf) (cwp : ConfigPath) (rc : DeprecatedRawChainConnectionConf),
      raw.connection = some rc → (ChainConnectionConf.fromConfigFiltered rc cwp).isOk = true →
      raw.domain = none →
      (cwp ++ ["domain"], "Missing `domain` configuration")
          ∈ errsOf (ChainConf.fromConfigFiltered raw cwp)) := by
  refine ⟨?_, ?_, ?_⟩
  · intro raw cwp h
    simp only [ChainConf.fromConfigFiltered, resolveConnectionField, resolveDomainField, h]
    simp [errsOf]
  · intro raw cwp hfail e he
    have hc1 : (resolveConnectionField raw cwp).1 = none := by
      rcases hfail with h | ⟨rc, es, hrc, herr⟩
      · simp [resolveConnectionField, h]
      · simp [resolveConnectionField, hrc, herr]
    have h6 := chain_errs_sub raw cwp e he
    simp only [List.mem_append] at h6
    rcases h6 with ((((h' | h') | h') | h') | h') | h'
    · rcases connField_errs_shape raw cwp e h' with hr | hr <;>
        (rw [hr]; constructor <;> exact path_head_ne cwp _ _ _ (by decide))
    · rw [hc1] at h'
      simp [resolveDomainField] at h'
    · obtain ⟨r, hr⟩ := addressesField_errs_shape raw cwp e h'
      rw [hr]
      constructor <;> exact path_head_ne cwp _ _ _ (by decide)
    · obtain ⟨r, hr⟩ := signerField_errs_shape raw cwp e h'
      rw [hr]
      constructor <;> exact path_head_ne cwp _ _ _ (by decide)
    · have hr := finalityField_errs_shape raw cwp e h'
      rw [hr]
      constructor <;> exact path_head_ne cwp _ _ _ (by decide)
    · obtain ⟨r, hr⟩ := indexField_errs_shape raw cwp e h'
      rw [hr]
      constructor <;> exact path_head_ne cwp _ _ _ (by decide)
  · intro raw cwp rc hc hok hd
    cases hr : ChainConnectionConf.fromConfigFiltered rc cwp with
    | error es => rw [hr] at hok; simp [Except.isOk, Except.toBool] at hok
    | ok c =>
      simp only [ChainConf.fromConfigFiltered, resolveConnectionField, resolveDomainField,
        hc, hr, hd]
      simp [errsOf]

/-- C2 witness: the three parts of the amended claim at concrete chain
records, the suppression part at a present-but-failing (unknown-protocol)
connection whose own error is shown to sit at neither the domain nor the
name path. -/
theorem C2_witness :
    (["k", "connection"], "Missing `connection` configuration")
        ∈ errsOf (ChainConf.fromConfigFiltered noConnNoDomainChain ["k"]) ∧
    ((["u", "protocol"], "Unknown chain protocol").1 ≠ ["u"] ++ ["domain"] ∧
     (["u", "protocol"], "Unknown chain protocol").1 ≠ ["u"] ++ ["name"]) ∧
    (["g", "domain"], "Missing `domain` configuration")
        ∈ errsOf (ChainConf.fromConfigFiltered
          ⟨some "foo", none, none, none, some goodRawAddrs,
            some (.ethereum (.good 7)), none, none⟩ ["g"]) :=
  ⟨C2_domain_needs_connection.1 noConnNoDomainChain ["k"] rfl,
   C2_domain_needs_connection.2.1
     ⟨some "foo", none, none, none, some goodRawAddrs, some .unknown, none, none⟩ ["u"]
     (Or.inr ⟨.unknown, [(["u", "protocol"], "Unknown chain protocol")], rfl, by decide⟩)
     (["u", "protocol"], "Unknown chain protocol") (by decide),
   C2_domain_needs_connection.2.2
     ⟨some "foo", none, none, none, some goodRawAddrs, some (.ethereum (.good 7)), none, none⟩
     ["g"] (.ethereum (.good 7)) rfl (by decide) rfl⟩

/-- C6 counterexample: a chain record whose protocol discriminator is
absent (connection missing entirely, domain and addresses valid) fails with
"Missing `connection` configuration" at `chains.k.connection` — not with
the unknown-variant error at the discriminator the claim promises for the
absent case. -/
theorem C6_counterexample :
    ChainConf.fromConfigFiltered
      ⟨some "foo", some (.int 5), none, none, some goodRawAddrs, none, none, none⟩
      ["chains", "k"] =
      .error [(["chains", "k", "connection"], "Missing `connection` configuration")] := by
  decide

/-- C6 (amended): an unrecognized protocol discriminator fails with
"Unknown chain protocol" at `cwp.protocol` and the chain never resolves; an
absent discriminator instead fails with "Missing `connection`
configuration" at `cwp.connection`; and at the top level a document whose
only defective chain carries the unknown discriminator yields exactly that
chain's aggregate while the other chain resolves without contributing
errors. -/
theorem C6_unknown_protocol_fails :
    (∀ (raw : DeprecatedRawChainConf) (cwp : ConfigPath), raw.connection = some .unknown →
      (cwp ++ ["protocol"], "Unknown chain protocol")
          ∈ errsOf (ChainConf.fromConfigFiltered raw cwp) ∧
      (ChainConf.fromConfigFiltered raw cwp).isOk = false) ∧
    (∀ (raw : DeprecatedRawChainConf) (cwp : ConfigPath), raw.connection = none →
      (cwp ++ ["connection"], "Missing `connection` configuration")
          ∈ errsOf (ChainConf.fromConfigFiltered raw cwp) ∧
      (ChainConf.fromConfigFiltered raw cwp).isOk = false) ∧
    (∀ (cwp : ConfigPath) (k1 k2 : String) (braw graw : DeprecatedRawChainConf)
        (tr : Option Unit) (c : ChainConf),
      braw.connection = some .unknown →
      ChainConf.fromConfigFiltered graw ((cwp ++ ["chains"]) ++ [k2]) = .ok c →
      Settings.fromConfigFiltered ⟨some [(k1, braw), (k2, graw)], none, none, tr⟩ cwp none =
        .error (errsOf (ChainConf.fromConfigFiltered braw ((cwp ++ ["chains"]) ++ [k1])))) := by
  refine ⟨?_, ?_, ?_⟩
  · intro raw cwp h
    simp only [ChainConf.fromConfigFiltered, resolveConnectionField, resolveDomainField,
      ChainConnectionConf.fromConfigFiltered, h]
    simp [errsOf, Except.isOk, Except.toBool]
  · intro raw cwp h
    simp only [ChainConf.fromConfigFiltered, resolveConnectionField, resolveDomainField, h]
    simp [errsOf, Except.isOk, Except.toBool]
  · intro cwp k1 k2 braw graw tr c hbconn hg
    cases hb : ChainConf.fromConfigFiltered braw ((cwp ++ ["chains"]) ++ [k1]) with
    | ok c' =>
      have hc1 : (resolveConnectionField braw ((cwp ++ ["chains"]) ++ [k1])).1 = none := by
        simp [resolveConnectionField, hbconn, ChainConnectionConf.fromConfigFiltered]
      have hinv := chain_ok_inv _ _ _ hb
      rw [hc1] at hinv
      exact Option.noConfusion hinv.2.2.2.2.2.2.2.2.2.1
    | error ebs =>
      have hne := chain_error_ne_nil _ _ _ hb
      simp only [Settings.fromConfigFiltered, resolveDefaultSigner, retainChains,
        collectChains, resolveChainEntry, resolveMetricsField, hb, hg, errsOf]
      simp [List.isEmpty_iff, hne]

/-- C6 witness: the unknown-discriminator chain at a concrete path, and a
concrete two-chain document whose aggregate is exactly the defective
chain's error list. -/
theorem C6_witness :
    (["c", "protocol"], "Unknown chain protocol")
        ∈ errsOf (ChainConf.fromConfigFiltered unknownProtocolChain ["c"]) ∧
    Settings.fromConfigFiltered
        ⟨some [("b", unknownProtocolChain), ("g", goodRawChain)], none, none, none⟩ [] none =
      .error (errsOf (ChainConf.fromConfigFiltered unknownProtocolChain (([] ++ ["chains"]) ++ ["b"]))) :=
  ⟨(C6_unknown_protocol_fails.1 unknownProtocolChain ["c"] rfl).1,
   C6_unknown_protocol_fails.2.2 [] "b" "g" unknownProtocolChain goodRawChain none goodChainConf
     rfl (by decide)⟩

/-- C7: absent `finalityBlocks` resolves to 0, absent `metrics` to port
9090, absent `index.chunk` to chunk size 1999 and absent `index.from` to
start height 0, and in each case the absent field's resolution step
contributes no error to the aggregate. -/
theorem C7_defaults :
    (∀ (raw : DeprecatedRawChainConf) (cwp : ConfigPath) (c : ChainConf),
      raw.finality_blocks = none → ChainConf.fromConfigFiltered raw cwp = .ok c →
      c.finality_blocks = 0) ∧
    (∀ (raw : DeprecatedRawChainConf) (cwp : ConfigPath), raw.finality_blocks = none →
      resolveFinalityField raw cwp = (0, [])) ∧
    (∀ (raw : DeprecatedRawSettings) (cwp : ConfigPath) (filter : Option (List String))
        (s : Settings), raw.metrics = none →
      Settings.fromConfigFiltered raw cwp filter = .ok s → s.metrics_port = 9090) ∧
    (∀ cwp : ConfigPath, resolveMetricsField none cwp = (none, [])) ∧
    (∀ (raw : DeprecatedRawIndexSettings) (cwp : ConfigPath) (i : IndexSettings),
      raw.chunk = none → IndexSettings.fromConfigFiltered raw cwp = .ok i →
      i.chunk_size = 1999) ∧
    (∀ cwp : ConfigPath, resolveIndexChunk none cwp = (1999, [])) ∧
    (∀ (raw : DeprecatedRawIndexSettings) (cwp : ConfigPath) (i : IndexSettings),
      raw.from_ = none → IndexSettings.fromConfigFiltered raw cwp = .ok i → i.from_ = 0) ∧
    (∀ cwp : ConfigPath, resolveIndexFrom none cwp = (0, [])) := by
  refine ⟨?_, ?_, ?_, ?_, ?_, ?_, ?_, ?_⟩
  · intro raw cwp c hf h
    have hinv := chain_ok_inv _ _ _ h
    rw [hinv.2.2.2.2.2.2.2.1]
    simp [resolveFinalityField, hf]
  · intro raw cwp hf
    simp [resolveFinalityField, hf]
  · intro raw cwp filter s hm h
    have hinv := settings_ok_inv _ _ _ _ h
    rw [hinv.2.1]
    simp [resolveMetricsField, hm]
  · intro cwp
    rfl
  · intro raw cwp i hc h
    rw [index_ok_inv _ _ _ h]
    simp [resolveIndexChunk, hc]
  · intro cwp
    rfl
  · intro raw cwp i hf h
    rw [index_ok_inv _ _ _ h]
    simp [resolveIndexFrom, hf]
  · intro cwp
    rfl

/-- C7 witness: the four defaults at concrete records that resolve
successfully. -/
theorem C7_witness :
    goodChainConf.finality_blocks = 0 ∧
    (⟨[], 9090, ()⟩ : Settings).metrics_port = 9090 ∧
    defaultIndexSettings.chunk_size = 1999 ∧
    defaultIndexSettings.from_ = 0 ∧
    resolveFinalityField goodRawChain ["k"] = (0, []) ∧
    resolveMetricsField none ["k"] = (none, []) :=
  ⟨C7_defaults.1 goodRawChain ["k"] goodChainConf rfl (by decide),
   C7_defaults.2.2.1 ⟨none, none, none, none⟩ ["k"] none ⟨[], 9090, ()⟩ rfl (by decide),
   C7_defaults.2.2.2.2.1 ⟨none, none, none⟩ ["i"] defaultIndexSettings rfl (by decide),
   C7_defaults.2.2.2.2.2.2.1 ⟨none, none, none⟩ ["i"] defaultIndexSettings rfl (by decide),
   C7_defaults.2.1 goodRawChain ["k"] rfl,
   C7_defaults.2.2.2.1 ["k"]⟩

/-- C4: with a supplied retain-set, entries are dropped on their
original-cased keys before lower-casing; on success the resolved map's keys
are exactly the lower-cased keys of the retained entries, and no error
whose path lies under a chain key outside the retain-set ever appears in
the aggregate. -/
theorem C4_filter_drops_before_lowercase (raw : DeprecatedRawSettings) (cwp : ConfigPath)
    (f : List String) (m : List (String × DeprecatedRawChainConf)) (b : String)
    (hm : raw.chains = some m) (hb : b ∉ f) :
    (∀ s, Settings.fromConfigFiltered raw cwp (some f) = .ok s →
      s.chains.map Prod.fst =
        (m.filter fun kv => f.contains kv.1).map fun kv => toAsciiLowercase kv.1) ∧
    (∀ e ∈ errsOf (Settings.fromConfigFiltered raw cwp (some f)), ∀ r : List String,
      e.1 ≠ cwp ++ ("chains" :: b :: r)) := by
  constructor
  · intro s h
    have hinv := settings_ok_inv _ _ _ _ h
    simp only [hm] at hinv
    obtain ⟨h1, _, ⟨_, h4⟩, _⟩ := hinv
    rw [h1, collectChains_ok_keys _ _ _ h4]
    rfl
  · intro e he r
    rcases settings_errs_shape _ _ _ _ he with ⟨r', hr⟩ | hr | ⟨kv, hkv, r', hr⟩
    · rw [hr]
      intro heq
      have h' := List.append_cancel_left heq
      simp at h'
    · rw [hr]
      intro heq
      have h' := List.append_cancel_left heq
      simp at h'
    · rw [hr]
      intro heq
      have h' := List.append_cancel_left heq
      simp only [List.cons.injEq] at h'
      have hkb : kv.1 = b := h'.2.1
      have hkv' : kv ∈ m.filter (fun kv => f.contains kv.1) := by
        simp only [hm, Option.getD_some] at hkv
        simpa only [retainChains] using hkv
      have hmem := (List.mem_filter.mp hkv').2
      rw [hkb] at hmem
      simp at hmem
      exact hb hmem

/-- C4 witness: a three-chain document with retain-set {A, C}; the dropped
chain b is malformed yet the document resolves, and the resolved keys are
the lower-cased retained keys. -/
theorem C4_witness :
    (⟨[("a", goodChainConf), ("c", goodChainConf)], 9090, ()⟩ : Settings).chains.map Prod.fst =
      (([("A", goodRawChain), ("b", noConnNoDomainChain), ("C", goodRawChain)].filter
        fun kv => (["A", "C"] : List String).contains kv.1).map fun kv => toAsciiLowercase kv.1) :=
  (C4_filter_drops_before_lowercase
      ⟨some [("A", goodRawChain), ("b", noConnNoDomainChain), ("C", goodRawChain)], none, none, none⟩
      [] ["A", "C"] [("A", goodRawChain), ("b", noConnNoDomainChain), ("C", goodRawChain)] "b"
      rfl (by decide)).1
    ⟨[("a", goodChainConf), ("c", goodChainConf)], 9090, ()⟩ (by decide)

/-- C10: the retain-filter is literal, case-sensitive membership of the
original-cased key: retention is exactly `filter.contains key`, on success
the output keys are the lower-cased retained keys, and the concrete chain
keyed "Foo" is dropped by the filter \x7b"foo"\x7d even though its
lower-cased key would match — its malformed body contributing nothing. -/
theorem C10_filter_case_sensitive :
    (∀ (raw : DeprecatedRawSettings) (cwp : ConfigPath) (f : List String)
        (m : List (String × DeprecatedRawChainConf)),
      raw.chains = some m →
      retainChains (some f) m = m.filter (fun kv => f.contains kv.1) ∧
      (∀ s, Settings.fromConfigFiltered raw cwp (some f) = .ok s →
        s.chains.map Prod.fst =
          (m.filter fun kv => f.contains kv.1).map fun kv => toAsciiLowercase kv.1)) ∧
    Settings.fromConfigFiltered ⟨some [("Foo", noConnNoDomainChain)], none, none, none⟩ []
      (some ["foo"]) = .ok ⟨[], 9090, ()⟩ := by
  constructor
  · intro raw cwp f m hm
    refine ⟨rfl, ?_⟩
    intro s h
    have hinv := settings_ok_inv _ _ _ _ h
    simp only [hm] at hinv
    obtain ⟨h1, _, ⟨_, h4⟩, _⟩ := hinv
    rw [h1, collectChains_ok_keys _ _ _ h4]
    rfl
  · decide

/-- C10 witness: the general retention equation of the theorem applied to
the concrete "Foo" document. -/
theorem C10_witness :
    retainChains (some ["foo"]) [("Foo", noConnNoDomainChain)] =
      [("Foo", noConnNoDomainChain)].filter (fun kv => (["foo"] : List String).contains kv.1) :=
  ((C10_filter_case_sensitive.1)
      ⟨some [("Foo", noConnNoDomainChain)], none, none, none⟩ [] ["foo"]
      [("Foo", noConnNoDomainChain)] rfl).1

theorem signer_error_ne_nil (raw : DeprecatedRawSignerConf) (cwp : ConfigPath) (es : ErrList)
    (h : SignerConf.fromConfigFiltered raw cwp = .error es) : es ≠ [] := by
  intro hnil
  subst hnil
  unfold SignerConf.fromConfigFiltered at h
  repeat' split at h
  all_goals simp at h

/-- C5: with a document-level default signer that resolves, a chain record
with no signer of its own resolves to its chain configuration with the
default substituted, and a chain record with its own signer keeps its own
resolved signer untouched by the default — shown per chain-map entry (the
form every document's chain walk applies) and end-to-end on single-chain
documents. -/
theorem C5_default_signer_cascade (cwp : ConfigPath) (tr : Option Unit)
    (ds : DeprecatedRawSignerConf) (d : SignerConf) (k : String) (v : DeprecatedRawChainConf)
    (hd : SignerConf.fromConfigFiltered ds (cwp ++ ["defaultsigner"]) = .ok d) :
    (∀ (chainsPath : ConfigPath) (kv : String × DeprecatedRawChainConf) (c : ChainConf),
      kv.2.signer = none → ChainConf.fromConfigFiltered kv.2 (chainsPath ++ [kv.1]) = .ok c →
      resolveChainEntry (some d) chainsPath kv =
        .ok (toAsciiLowercase kv.1, { c with signer := some d })) ∧
    (∀ (chainsPath : ConfigPath) (kv : String × DeprecatedRawChainConf) (c : ChainConf)
        (sv : DeprecatedRawSignerConf),
      kv.2.signer = some sv → ChainConf.fromConfigFiltered kv.2 (chainsPath ++ [kv.1]) = .ok c →
      resolveChainEntry (some d) chainsPath kv = .ok (toAsciiLowercase kv.1, c)) ∧
    (∀ c, v.signer = none → ChainConf.fromConfigFiltered v ((cwp ++ ["chains"]) ++ [k]) = .ok c →
      Settings.fromConfigFiltered ⟨some [(k, v)], some ds, none, tr⟩ cwp none =
        .ok ⟨[(toAsciiLowercase k, { c with signer := some d })], 9090, ()⟩) ∧
    (∀ c sv, v.signer = some sv →
      ChainConf.fromConfigFiltered v ((cwp ++ ["chains"]) ++ [k]) = .ok c →
      (∃ rs, SignerConf.fromConfigFiltered sv (((cwp ++ ["chains"]) ++ [k]) ++ ["signer"]) = .ok rs ∧
        c.signer = some rs) ∧
      Settings.fromConfigFiltered ⟨some [(k, v)], some ds, none, tr⟩ cwp none =
        .ok ⟨[(toAsciiLowercase k, c)], 9090, ()⟩) := by
  have entryNone : ∀ (chainsPath : ConfigPath) (kv : String × DeprecatedRawChainConf)
      (c : ChainConf), kv.2.signer = none →
      ChainConf.fromConfigFiltered kv.2 (chainsPath ++ [kv.1]) = .ok c →
      resolveChainEntry (some d) chainsPath kv =
        .ok (toAsciiLowercase kv.1, { c with signer := some d }) := by
    intro chainsPath kv c hnone hc
    have hsig : c.signer = none := by
      rw [(chain_ok_inv _ _ _ hc).2.2.2.2.2.2.1]
      simp [resolveSignerField, hnone]
    simp only [resolveChainEntry, hc, hsig]
  have entrySome : ∀ (chainsPath : ConfigPath) (kv : String × DeprecatedRawChainConf)
      (c : ChainConf) (sv : DeprecatedRawSignerConf), kv.2.signer = some sv →
      ChainConf.fromConfigFiltered kv.2 (chainsPath ++ [kv.1]) = .ok c →
      (∃ rs, SignerConf.fromConfigFiltered sv ((chainsPath ++ [kv.1]) ++ ["signer"]) = .ok rs ∧
        c.signer = some rs) ∧
      resolveChainEntry (some d) chainsPath kv = .ok (toAsciiLowercase kv.1, c) := by
    intro chainsPath kv c sv hsome hc
    have hsegnil := (chain_ok_inv _ _ _ hc).2.2.2.1
    have hval := (chain_ok_inv _ _ _ hc).2.2.2.2.2.2.1
    obtain ⟨rs, hrs, hcs⟩ :
        ∃ rs, SignerConf.fromConfigFiltered sv ((chainsPath ++ [kv.1]) ++ ["signer"]) = .ok rs ∧
          c.signer = some rs := by
      cases hres : SignerConf.fromConfigFiltered sv ((chainsPath ++ [kv.1]) ++ ["signer"]) with
      | error es =>
        have hres' := hres
        simp only [List.append_assoc, List.cons_append, List.nil_append] at hres'
        rw [show (resolveSignerField kv.2 (chainsPath ++ [kv.1])).2 = es from by
          simp [resolveSignerField, hsome, hres']] at hsegnil
        exact absurd hsegnil (signer_error_ne_nil _ _ _ hres)
      | ok rs =>
        have hres' := hres
        simp only [List.append_assoc, List.cons_append, List.nil_append] at hres'
        refine ⟨rs, rfl, ?_⟩
        rw [hval]
        simp [resolveSignerField, hsome, hres']
    have hmatch : (match c.signer with | some s => some s | none => some d) = c.signer := by
      rw [hcs]
    refine ⟨⟨rs, hrs, hcs⟩, ?_⟩
    simp only [resolveChainEntry, hc, hmatch]
  refine ⟨entryNone, fun p kv c sv h1 h2 => (entrySome p kv c sv h1 h2).2, ?_, ?_⟩
  · intro c hnone hc
    have he := entryNone (cwp ++ ["chains"]) (k, v) c hnone hc
    simp only [Settings.fromConfigFiltered, resolveDefaultSigner, hd, retainChains,
      collectChains, he, resolveMetricsField]
    simp
  · intro c sv hsome hc
    obtain ⟨hex, he⟩ := entrySome (cwp ++ ["chains"]) (k, v) c sv hsome hc
    refine ⟨hex, ?_⟩
    simp only [Settings.fromConfigFiltered, resolveDefaultSigner, hd, retainChains,
      collectChains, he, resolveMetricsField]
    simp

/-- C5 witness: a concrete document with a hex-key default signer, one
chain without a signer (getting the default) and one with its own AWS
signer (keeping it). -/
theorem C5_witness :
    Settings.fromConfigFiltered ⟨some [("K", goodRawChain)], some goodRawSigner, none, none⟩ [] none =
      .ok ⟨[("k", { goodChainConf with signer := some (.hexKey 1) })], 9090, ()⟩ ∧
    Settings.fromConfigFiltered
        ⟨some [("K", ⟨some "foo", some (.int 5), some ⟨none, none, some "i1", some "r1"⟩, none,
          some goodRawAddrs, some (.ethereum (.good 7)), none, none⟩)],
          some goodRawSigner, none, none⟩ [] none =
      .ok ⟨[("k", ⟨.ethereum 7, ⟨5, "foo", .ethereum⟩, ⟨1, 1, 1⟩, some (.aws "i1" "r1"), 0,
        defaultIndexSettings, ()⟩)], 9090, ()⟩ :=
  ⟨(C5_default_signer_cascade [] none goodRawSigner (.hexKey 1) "K" goodRawChain (by decide)).2.2.1
      goodChainConf rfl (by decide),
   ((C5_default_signer_cascade [] none goodRawSigner (.hexKey 1) "K"
      ⟨some "foo", some (.int 5), some ⟨none, none, some "i1", some "r1"⟩, none,
        some goodRawAddrs, some (.ethereum (.good 7)), none, none⟩ (by decide)).2.2.2
      ⟨.ethereum 7, ⟨5, "foo", .ethereum⟩, ⟨1, 1, 1⟩, some (.aws "i1" "r1"), 0,
        defaultIndexSettings, ()⟩
      ⟨none, none, some "i1", some "r1"⟩ rfl (by decide)).2⟩

theorem resolveDomainField_domain_congr (conn : ChainConnectionConf)
    (raw1 raw2 : DeprecatedRawChainConf) (cwp : ConfigPath)
    (v1 v2 : StrOrInt) (h1 : raw1.domain = some v1) (h2 : raw2.domain = some v2)
    (hn : raw1.name = raw2.name)
    (hv : strOrIntTryInto 4294967296 v1 = strOrIntTryInto 4294967296 v2) :
    resolveDomainField (some conn) raw1 cwp = resolveDomainField (some conn) raw2 cwp := by
  simp only [resolveDomainField, h1, h2, hn, hv]

/-- C8: a numeric value encoded as its quoted decimal string or as a bare
integer coerces to the same number; a non-numeric string and an
out-of-range value (in either encoding) are coercion errors; in particular
the domain field of a chain resolves identically under both encodings. -/
theorem C8_coercion_roundtrip (bound n : Nat) (s : String) (hb : n < bound)
    (h32 : n < 4294967296) :
    strOrIntTryInto bound (.str (decOfNat n)) = .ok n ∧
    strOrIntTryInto bound (.int (n : Int)) = .ok n ∧
    (parseDecString s = none → strOrIntTryInto bound (.str s) = .error "Invalid numeric string") ∧
    (∀ m : Nat, bound ≤ m → strOrIntTryInto bound (.int (m : Int)) = .error "Out of range") ∧
    (∀ m : Nat, parseDecString s = some m → bound ≤ m →
      strOrIntTryInto bound (.str s) = .error "Out of range") ∧
    (∀ (conn : ChainConnectionConf) (raw : DeprecatedRawChainConf) (cwp : ConfigPath),
      resolveDomainField (some conn) { raw with domain := some (.str (decOfNat n)) } cwp =
        resolveDomainField (some conn) { raw with domain := some (.int (n : Int)) } cwp) ∧
    (∀ (conn : ChainConnectionConf) (raw : DeprecatedRawChainConf) (cwp : ConfigPath)
        (v : StrOrInt) (msg : String),
      raw.domain = some v → strOrIntTryInto 4294967296 v = .error msg →
      (cwp ++ ["domain"], "Invalid domain id, expected integer")
          ∈ (resolveDomainField (some conn) raw cwp).2) := by
  refine ⟨?_, ?_, ?_, ?_, ?_, ?_, ?_⟩
  · have h := parseDecString_decOfNat n
    simp only [strOrIntTryInto, h, if_pos hb]
  · have hc : (0 : Int) ≤ (n : Int) ∧ (n : Int) < (bound : Int) :=
      ⟨Int.ofNat_nonneg n, by exact_mod_cast hb⟩
    simp only [strOrIntTryInto, if_pos hc, Int.toNat_natCast]
  · intro hp
    simp only [strOrIntTryInto, hp]
  · intro m hm
    have hc : ¬((0 : Int) ≤ (m : Int) ∧ (m : Int) < (bound : Int)) := by
      rintro ⟨_, hlt⟩
      exact absurd (by exact_mod_cast hlt) (not_lt.mpr hm)
    simp only [strOrIntTryInto, if_neg hc]
  · intro m hp hm
    simp only [strOrIntTryInto, hp, if_neg (not_lt.mpr hm)]
  · intro conn raw cwp
    have e1 : strOrIntTryInto 4294967296 (.str (decOfNat n)) = .ok n := by
      have h := parseDecString_decOfNat n
      simp only [strOrIntTryInto, h, if_pos h32]
    have e2 : strOrIntTryInto 4294967296 (.int (n : Int)) = .ok n := by
      have hc : (0 : Int) ≤ (n : Int) ∧ (n : Int) < ((4294967296 : Nat) : Int) :=
        ⟨Int.ofNat_nonneg n, by exact_mod_cast h32⟩
      simp only [strOrIntTryInto, if_pos hc, Int.toNat_natCast]
    exact resolveDomainField_domain_congr conn _ _ cwp _ _ rfl rfl rfl (e1.trans e2.symm)
  · intro conn raw cwp v msg hdom herr
    simp only [resolveDomainField, hdom, herr]
    simp

/-- C8 witness: the number 42 under both encodings, with a non-numeric
string rejected. -/
theorem C8_witness :
    decOfNat 42 = "42" ∧
    strOrIntTryInto 100 (.str (decOfNat 42)) = .ok 42 ∧
    strOrIntTryInto 100 (.int (42 : Int)) = .ok 42 ∧
    parseDecString "x7" = none :=
  ⟨by decide,
   (C8_coercion_roundtrip 100 42 "x7" (by decide) (by decide)).1,
   (C8_coercion_roundtrip 100 42 "x7" (by decide) (by decide)).2.1,
   by decide⟩

/-- C9 counterexample: a document with no `chains` field but a malformed
`metrics` value fails with the metrics coercion error, so the claim's
unconditional "the top-level resolver succeeds" is false — even though the
malformed default signer indeed contributed nothing. -/
theorem C9_counterexample :
    Settings.fromConfigFiltered
      ⟨none, some ⟨some "bogus", none, none, none⟩, some (.str "x"), none⟩ [] none =
      .error [(["metrics"], "Invalid numeric string")] := by decide

/-- C9 (amended): with the `chains` field absent the default signer is
never parsed — the result is identical whatever the `defaultsigner` field
holds, so even a malformed one contributes no error — and the chain map is
empty; the resolver succeeds exactly when the remaining `metrics` field is
absent (port 9090) or coerces (that port): a present valid metrics value
yields the empty settings with that port, and a present invalid one yields
exactly the metrics coercion error. -/
theorem C9_absent_chains (raw : DeprecatedRawSettings) (cwp : ConfigPath)
    (filter : Option (List String)) (h : raw.chains = none) :
    Settings.fromConfigFiltered raw cwp filter =
      Settings.fromConfigFiltered ⟨none, none, raw.metrics, raw.tracing⟩ cwp filter ∧
    (raw.metrics = none → Settings.fromConfigFiltered raw cwp filter = .ok ⟨[], 9090, ()⟩) ∧
    (∀ v n, raw.metrics = some v → strOrIntTryInto 65536 v = .ok n →
      Settings.fromConfigFiltered raw cwp filter = .ok ⟨[], n, ()⟩) ∧
    (∀ v msg, raw.metrics = some v → strOrIntTryInto 65536 v = .error msg →
      Settings.fromConfigFiltered raw cwp filter = .error [(cwp ++ ["metrics"], msg)]) ∧
    (∀ s, Settings.fromConfigFiltered raw cwp filter = .ok s → s.chains = []) := by
  refine ⟨?_, ?_, ?_, ?_, ?_⟩
  · simp only [Settings.fromConfigFiltered, h]
  · intro hm
    simp only [Settings.fromConfigFiltered, h, hm, resolveMetricsField]
    simp
  · intro v n hv hok
    simp only [Settings.fromConfigFiltered, h, hv, resolveMetricsField, hok]
    simp
  · intro v msg hv herr
    simp only [Settings.fromConfigFiltered, h, hv, resolveMetricsField, herr]
    simp
  · intro s hs
    have hinv := settings_ok_inv _ _ _ _ hs
    simp only [h] at hinv
    exact hinv.1

/-- C9 witness: with chains absent and a malformed default signer, absent
metrics resolve to port 9090, a valid present metrics value to its own
port, and an invalid one to exactly the metrics error. -/
theorem C9_witness :
    Settings.fromConfigFiltered
      ⟨none, some ⟨some "bogus", none, none, none⟩, none, none⟩ [] none = .ok ⟨[], 9090, ()⟩ ∧
    Settings.fromConfigFiltered
      ⟨none, some ⟨some "bogus", none, none, none⟩, some (.int 3000), none⟩ [] none =
      .ok ⟨[], 3000, ()⟩ ∧
    Settings.fromConfigFiltered
      ⟨none, some ⟨some "bogus", none, none, none⟩, some (.str "x"), none⟩ [] none =
      .error [(["metrics"], "Invalid numeric string")] :=
  ⟨(C9_absent_chains ⟨none, some ⟨some "bogus", none, none, none⟩, none, none⟩ []
      none rfl).2.1 rfl,
   (C9_absent_chains ⟨none, some ⟨some "bogus", none, none, none⟩, some (.int 3000), none⟩ []
      none rfl).2.2.1 (.int 3000) 3000 rfl (by decide),
   (C9_absent_chains ⟨none, some ⟨some "bogus", none, none, none⟩, some (.str "x"), none⟩ []
      none rfl).2.2.2.1 (.str "x") "Invalid numeric string" rfl (by decide)⟩
